import Mathlib

/-!
Shallow embedding of the embind runtime (src/src/embind/embind.js): the
type-registry unbound-type walk, the public-symbol overload table, the
invoker factory, the class-hierarchy navigator, and the refcounted
class-handle ownership manager.  JavaScript numbers that are used as
pointers, type ids and function ids are modelled as Nat; nullable or
possibly-undefined values as Option; thrown exceptions as Except.
-/

namespace Embind

/-- Errors thrown by the runtime.  BindingError and InternalError carry the
message string built at the throw site; UnboundTypeError carries the message
and the list of unbound type ids (the source renders them through getTypeName
before joining, which we abstract away). -/
inductive EmbindError where
  | bindingError (msg : String)
  | internalError (msg : String)
  | unboundType (msg : String) (unboundTypes : List Nat)
  deriving Repr, DecidableEq

/-- Truthiness of a possibly-undefined JavaScript number: undefined and 0 are
falsy, every other number is truthy. -/
def truthy : Option Nat → Bool
  | none => false
  | some n => n != 0

/-! ## Type registry: the unbound-type error walk (throwUnboundTypeError) -/

/-- The two registry tables consulted by throwUnboundTypeError:
registeredTypes (is a descriptor registered for this id) and
typeDependencies (the recorded dependency list, when one exists). -/
structure TypeGraph where
  registeredTypes : Nat → Bool
  typeDependencies : Nat → Option (List Nat)

/-- Mutable state of the walk in throwUnboundTypeError: the seen set and the
accumulated unboundTypes list (both grown only when a leaf is pushed). -/
structure WalkState where
  seen : List Nat
  unboundTypes : List Nat
  deriving Repr, DecidableEq

/-- Sequential fold with early exit, modelling list.forEach over a visitor
that can diverge (None = the visitor never returned). -/
def optFold (f : WalkState → Nat → Option WalkState) : WalkState → List Nat → Option WalkState
  | s, [] => some s
  | s, t :: rest =>
    match f s t with
    | none => none
    | some s1 => optFold f s1 rest

/-- Fuel-indexed embedding of the recursive visit closure inside
throwUnboundTypeError.  None means the recursion did not complete within the
given fuel; a result independent of sufficiently large fuel is the behaviour
of the JavaScript function, and None for every fuel is divergence.  The
source checks seen, then registeredTypes, then recurses through
typeDependencies, and only at a leaf pushes onto unboundTypes and marks the
type seen. -/
def visitT (G : TypeGraph) : Nat → WalkState → Nat → Option WalkState
  | 0, _, _ => none
  | fuel + 1, s, t =>
    if t ∈ s.seen then some s
    else if G.registeredTypes t then some s
    else
      match G.typeDependencies t with
      | some ds => optFold (fun s1 d => visitT G fuel s1 d) s ds
      | none => some ⟨t :: s.seen, s.unboundTypes ++ [t]⟩

/-- Embedding of throwUnboundTypeError itself: run the visitor over the given
root type ids starting from empty state, then throw an UnboundTypeError
carrying the collected unboundTypes.  None = the walk never finishes. -/
def throwUnboundTypeErrorF (G : TypeGraph) (fuel : Nat) (message : String)
    (types : List Nat) : Option EmbindError :=
  match optFold (fun s t => visitT G fuel s t) ⟨[], []⟩ types with
  | none => none
  | some s => some (.unboundType message s.unboundTypes)

/-- A type x is a still-unregistered leaf dependency reachable from t: the
walk from t passes only through unregistered types that have recorded
dependencies and ends at an unregistered type with no recorded
dependencies. -/
inductive ReachesLeaf (G : TypeGraph) : Nat → Nat → Prop where
  | leaf (t : Nat) (hr : G.registeredTypes t = false)
      (hd : G.typeDependencies t = none) : ReachesLeaf G t t
  | step (t d x : Nat) (ds : List Nat) (hr : G.registeredTypes t = false)
      (hd : G.typeDependencies t = some ds) (hmem : d ∈ ds)
      (h : ReachesLeaf G d x) : ReachesLeaf G t x

/-- Invariant maintained by the walk: unboundTypes is duplicate-free, seen
and unboundTypes hold the same types, and every seen type is an unregistered
leaf. -/
def WalkInv (G : TypeGraph) (s : WalkState) : Prop :=
  s.unboundTypes.Nodup ∧
  (∀ t, t ∈ s.seen ↔ t ∈ s.unboundTypes) ∧
  (∀ t, t ∈ s.seen → G.registeredTypes t = false ∧ G.typeDependencies t = none)

/-! ## Class hierarchy navigator (RegisteredClass chains, upcast, downcast) -/

/-- A RegisteredClass together with its single-inheritance base chain.  A
root class has no baseClass and no upcast or downcast function; a derived
class carries its native upcast (to its immediate base) and native downcast
(from its immediate base), exactly the fields _embind_register_class stores.
Identity comparison (JavaScript ===) is modelled as equality of the kid
field; the registry assigns distinct kids to distinct classes. -/
inductive Klass where
  | root (kid : Nat) (name : String)
  | derived (kid : Nat) (name : String) (upcastFn : Nat → Nat)
      (downcastFn : Nat → Nat) (base : Klass)

/-- Identity key of a class. -/
def Klass.kid : Klass → Nat
  | .root k _ => k
  | .derived k _ _ _ _ => k

/-- Name of a class. -/
def Klass.name : Klass → String
  | .root _ n => n
  | .derived _ n _ _ _ => n

/-- The baseClass field: none on a root class. -/
def Klass.baseClass : Klass → Option Klass
  | .root _ _ => none
  | .derived _ _ _ _ b => some b

/-- Identity keys of the class and all its ancestors, nearest first. -/
def Klass.ids : Klass → List Nat
  | .root k _ => [k]
  | .derived k _ _ _ b => k :: b.ids

/-- The root of the inheritance chain. -/
def Klass.rootClass : Klass → Klass
  | .root k n => .root k n
  | .derived _ _ _ _ b => b.rootClass

/-- Walk the chain to the root, applying each level of native upcast to the
pointer on the way (the loops inside ClassHandle_isAliasOf). -/
def Klass.upcastToRoot : Klass → Nat → Nat
  | .root _ _, p => p
  | .derived _ _ up _ b, p => b.upcastToRoot (up p)

/-- Embedding of downcastPointer: identity when the classes coincide, no
conversion (none) when desiredClass is a root other than ptrClass, and
otherwise the recursive downcast to the base of desiredClass followed by the
native downcast of desiredClass.  The source has no throw path here: a
failed downcast is the sentinel, not an error. -/
def downcastPointer (ptr : Nat) (ptrClass desiredClass : Klass) : Option Nat :=
  if ptrClass.kid == desiredClass.kid then some ptr
  else
    match desiredClass with
    | .root _ _ => none
    | .derived _ _ _ dn base =>
      match downcastPointer ptr ptrClass base with
      | none => none
      | some rv => some (dn rv)

/-- Embedding of upcastPointer: walk from ptrClass toward the root applying
each level of native upcast; reaching a root without having met desiredClass
throws a BindingError (the TypeMismatchError of the design), whose message
names desiredClass and the class reached when the chain ran out. -/
def upcastPointer (ptr : Nat) (ptrClass desiredClass : Klass) : Except EmbindError Nat :=
  if ptrClass.kid == desiredClass.kid then .ok ptr
  else
    match ptrClass with
    | .root _ nm =>
      .error (.bindingError ("Expected null or instance of " ++ desiredClass.name ++
        ", got an instance of " ++ nm))
    | .derived _ _ up _ base => upcastPointer (up ptr) base desiredClass

/-- Relational rendering of the upcast walk, following the specification
text: the chain is walked from the starting class toward the root, each
level applies its native upcast to the pointer, and the walk stops
successfully exactly when the desired class is reached. -/
inductive UpcastWalk (desired : Klass) : Klass → Nat → Nat → Prop where
  | done (c : Klass) (p : Nat) (h : c.kid = desired.kid) : UpcastWalk desired c p p
  | step (k : Nat) (nm : String) (up dn : Nat → Nat) (base : Klass) (p v : Nat)
      (hne : k ≠ desired.kid) (h : UpcastWalk desired base (up p) v) :
      UpcastWalk desired (.derived k nm up dn base) p v

/-- A cyclic dependency graph: types 0 and 1 are unregistered and each
depends on the other. -/
def cyclicGraph : TypeGraph where
  registeredTypes := fun _ => false
  typeDependencies := fun t => if t = 0 then some [1] else if t = 1 then some [0] else none

/-- Divergence of the unbound-type walk on cyclicGraph: for every fuel the
visit of type 0 fails to complete, so throwUnboundTypeError never returns. -/
def cyclicWalkDiverges : Prop :=
  (∀ fuel s, visitT cyclicGraph fuel ⟨[], s⟩ 0 = none) ∧
  (∀ fuel, throwUnboundTypeErrorF cyclicGraph fuel "Cannot call f due to unbound types" [0] = none)

/-! ## Public symbol overload table (ensureOverloadTable, exposePublicSymbol) -/

/-- A callable registered under a public name.  cid identifies the
underlying function; argCount is the argCount property (written by
replacePublicSymbol and read by ensureOverloadTable when promoting) and
numArguments is the numArguments property (written by exposePublicSymbol on
first registration).  Either property may be absent (undefined). -/
structure Callable where
  cid : Nat
  argCount : Option Nat
  numArguments : Option Nat
  deriving Repr, DecidableEq

/-- A value stored under a public name on the Module object: either the
callable itself (first registration) or an overload table, an association
from arity to callable.  A key of none models the JavaScript undefined index
produced when a callable without an argCount property is moved into the
table. -/
inductive PublicSymbol where
  | plain (f : Callable)
  | overloaded (table : List (Option Nat × Callable))
  deriving Repr, DecidableEq

/-- The Module object, an association of property names to stored values. -/
def ModuleObj := List (String × PublicSymbol)

/-- Property lookup on the Module object. -/
def ModuleObj.lookup (m : ModuleObj) (name : String) : Option PublicSymbol :=
  (List.find? (fun kv => kv.1 == name) m).map Prod.snd

/-- Module.hasOwnProperty. -/
def ModuleObj.contains (m : ModuleObj) (name : String) : Bool :=
  (m.lookup name).isSome

/-- Store a value under a name, replacing any previous binding. -/
def ModuleObj.set (m : ModuleObj) (name : String) (v : PublicSymbol) : ModuleObj :=
  match m with
  | [] => [(name, v)]
  | kv :: rest =>
    if kv.1 == name then (name, v) :: rest else kv :: ModuleObj.set rest name v

/-- Overload table lookup by arity key. -/
def tableGet (table : List (Option Nat × Callable)) (k : Option Nat) : Option Callable :=
  (List.find? (fun kv => kv.1 == k) table).map Prod.snd

/-- Overload table update by arity key (assignment to a JavaScript array
index: replaces an existing entry, otherwise appends). -/
def tableSet (table : List (Option Nat × Callable)) (k : Option Nat) (f : Callable) :
    List (Option Nat × Callable) :=
  match table with
  | [] => [(k, f)]
  | kv :: rest => if kv.1 == k then (k, f) :: rest else kv :: tableSet rest k f

/-- Embedding of ensureOverloadTable: when the stored value has no overload
table yet, replace it by a dispatcher whose table holds the previous
callable at index prevFunc.argCount. -/
def ensureOverloadTable (m : ModuleObj) (name : String) : ModuleObj :=
  match m.lookup name with
  | some (.plain prevFunc) =>
    m.set name (.overloaded [(prevFunc.argCount, prevFunc)])
  | _ => m

/-- Embedding of exposePublicSymbol.  On a fresh name the callable is stored
directly and its numArguments property is set when provided.  On an existing
name: re-registration without numArguments, or with an arity already present
in an existing overload table, throws; otherwise the symbol is promoted to
an overload table (ensureOverloadTable) and, after the hasOwnProperty check
the source performs against the Module object itself with the numeric key,
the new callable is stored under its arity. -/
def exposePublicSymbol (m : ModuleObj) (name : String) (value : Callable)
    (numArguments : Option Nat) : Except EmbindError ModuleObj :=
  match m.lookup name with
  | some sym =>
    match numArguments with
    | none => .error (.bindingError ("Cannot register public name " ++ name ++ " twice"))
    | some n =>
      let dup := match sym with
        | .overloaded table => (tableGet table (some n)).isSome
        | .plain _ => false
      if dup then
        .error (.bindingError ("Cannot register public name " ++ name ++ " twice"))
      else
        let m1 := ensureOverloadTable m name
        if m1.contains (Nat.repr n) then
          .error (.bindingError
            ("Cannot register multiple overloads of a function with the same number of arguments (" ++
              Nat.repr n ++ ")!"))
        else
          match m1.lookup name with
          | some (.overloaded table) => .ok (m1.set name (.overloaded (tableSet table (some n) value)))
          | _ => .ok m1
  | none =>
    match numArguments with
    | some n => .ok (m.set name (.plain { value with numArguments := some n }))
    | none => .ok (m.set name (.plain value))

/-- Embedding of replacePublicSymbol: the name must already exist; with an
overload table present and an arity given, the table entry is replaced,
otherwise the symbol itself is replaced and its argCount property set. -/
def replacePublicSymbol (m : ModuleObj) (name : String) (value : Callable)
    (numArguments : Option Nat) : Except EmbindError ModuleObj :=
  match m.lookup name with
  | none => .error (.internalError "Replacing nonexistant public symbol")
  | some sym =>
    match sym, numArguments with
    | .overloaded table, some n => .ok (m.set name (.overloaded (tableSet table (some n) value)))
    | _, _ => .ok (m.set name (.plain { value with argCount := numArguments }))

/-- Message of the BindingError thrown by the overload dispatcher: it names
the function, the offending argument count, and renders the overload table,
whose defined indices are the registered arities. -/
def invalidArityMsg (humanName : String) (got : Nat) (arities : List (Option Nat)) : String :=
  "Function " ++ humanName ++ " called with an invalid number of arguments (" ++
    Nat.repr got ++ ") - expects one of (" ++
    String.intercalate ", " (arities.map (fun a => match a with
      | some n => Nat.repr n
      | none => "undefined")) ++ ")!"

/-- Calling a public symbol with an argument list.  A plain stored callable
is invoked directly (any arity checking is inside the callable itself, see
craftInvokerFunction); a dispatcher looks the argument count up in its
overload table and throws the arity BindingError when no overload with that
count is registered.  The result records which callable ran and with which
arguments. -/
def callPublicSymbol (m : ModuleObj) (name : String) (args : List Nat) :
    Except EmbindError (Nat × List Nat) :=
  match m.lookup name with
  | none => .error (.internalError "no such public symbol")
  | some (.plain f) => .ok (f.cid, args)
  | some (.overloaded table) =>
    match tableGet table (some args.length) with
    | some f => .ok (f.cid, args)
    | none => .error (.bindingError (invalidArityMsg name args.length (table.map Prod.fst)))

/-! ## Invoker factory (craftInvokerFunction, runDestructors) -/

/-- The destructorFunction property of a type descriptor: undefined (the
type pushes transient cleanup onto the dynamic destructor stack), null (no
destructor needed), or a statically-known destructor function. -/
inductive DtorSpec where
  | undef
  | null
  | fn (fid : Nat)
  deriving Repr, DecidableEq

/-- A wire-type descriptor as craftInvokerFunction consumes it.  toWire is
toWireType restricted to its pure value conversion; dtorPushFn, when
present, is the free function the descriptor pushes (paired with the wire
value) onto the destructor sink during toWireType; fromWire is
fromWireType. -/
structure WireType where
  name : String
  toWire : Nat → Nat
  dtorPushFn : Option Nat
  destructorFn : DtorSpec
  fromWire : Nat → Nat

/-- Observable steps taken by a crafted invoker, in execution order. -/
inductive CallEvent where
  | convertThis (wired : Nat)
  | convertArg (i : Nat) (wired : Nat)
  | invokeNative (rv : Nat)
  | dynDtor (fid : Nat) (arg : Nat)
  | staticDtor (fid : Nat) (arg : Nat)
  | convertReturn (value : Nat)
  deriving Repr, DecidableEq

/-- Destructor events are the two destructor-running steps. -/
def isDtorEvent : CallEvent → Bool
  | .dynDtor _ _ => true
  | .staticDtor _ _ => true
  | _ => false

/-- Return-conversion events. -/
def isRetEvent : CallEvent → Bool
  | .convertReturn _ => true
  | _ => false

/-- Whether the crafted invoker needs a dynamic destructor stack: some
parameter type (the class this type included, null entries skipped) leaves
destructorFunction undefined. -/
def needsDestructorStack (thisType : Option WireType) (params : List WireType) : Bool :=
  (match thisType with
   | some t => t.destructorFn == DtorSpec.undef
   | none => false) ||
  params.any (fun t => t.destructorFn == DtorSpec.undef)

/-- Wire values of the actual parameters, converted in order. -/
def convertParams (params : List WireType) (args : List Nat) : List Nat :=
  (params.zip args).map (fun tv => tv.1.toWire tv.2)

/-- Entries pushed onto the dynamic destructor stack by the parameter
conversions, in push order: each descriptor with a dtorPushFn pushes the
pair of that function and the wire value. -/
def paramPushes (params : List WireType) (args : List Nat) : List (Nat × Nat) :=
  (params.zip args).filterMap
    (fun tv => tv.1.dtorPushFn.map (fun f => (f, tv.1.toWire tv.2)))

/-- Conversion-phase events: the optional this conversion followed by each
argument conversion in order. -/
def convTrace (thisType : Option WireType) (params : List WireType)
    (thisVal : Nat) (args : List Nat) : List CallEvent :=
  (match thisType with
   | some t => [CallEvent.convertThis (t.toWire thisVal)]
   | none => []) ++
  ((params.zip args).enum.map (fun itv => CallEvent.convertArg itv.1 (itv.2.1.toWire itv.2.2)))

/-- Embedding of runDestructors: pop and run the stacked (function, arg)
pairs in reverse push order. -/
def runDestructors (stack : List (Nat × Nat)) : List CallEvent :=
  stack.reverse.map (fun fa => CallEvent.dynDtor fa.1 fa.2)

/-- Static destructor calls for the post-call loop over the wired this and
parameters: every type whose destructorFunction is not null has it applied
to the wired value. -/
def staticDtorTrace (thisType : Option WireType) (params : List WireType)
    (thisVal : Nat) (args : List Nat) : List CallEvent :=
  (match thisType with
   | some t =>
     match t.destructorFn with
     | .fn f => [CallEvent.staticDtor f (t.toWire thisVal)]
     | _ => []
   | none => []) ++
  (params.zip args).filterMap (fun tv =>
    match tv.1.destructorFn with
    | .fn f => some (CallEvent.staticDtor f (tv.1.toWire tv.2))
    | _ => none)

/-- Destructor-phase events: the dynamic stack is drained when any parameter
type required it, otherwise the statically-known destructors run. -/
def dtorTrace (thisType : Option WireType) (params : List WireType)
    (thisVal : Nat) (args : List Nat) : List CallEvent :=
  if needsDestructorStack thisType params then
    runDestructors
      ((match thisType with
        | some t => (t.dtorPushFn.map (fun f => (f, t.toWire thisVal))).toList
        | none => []) ++ paramPushes params args)
  else
    staticDtorTrace thisType params thisVal args

/-- Embedding of the invoker built by craftInvokerFunction (the
non-code-generating path, whose behaviour the generated code mirrors).
humanName, the return type, the optional class this type, the parameter
types, the native invoker and target function pointer are fixed at craft
time; thisVal and args are the call.  The result is the ordered event trace
together with the thrown error or the (optional, absent for void) converted
return value.  The arity check runs before anything else; conversions,
native invocation, destructors and return conversion follow in order. -/
def craftInvokerFunction (humanName : String) (retType : WireType)
    (thisType : Option WireType) (params : List WireType)
    (cppInvokerFunc : List Nat → Nat) (cppTargetFunc : Nat)
    (thisVal : Nat) (args : List Nat) :
    List CallEvent × Except EmbindError (Option Nat) :=
  let expectedArgCount := params.length
  if args.length ≠ expectedArgCount then
    ([], .error (.bindingError ("function " ++ humanName ++ " called with " ++
      Nat.repr args.length ++ " arguments, expected " ++ Nat.repr expectedArgCount ++ " args!")))
  else
    let thisWired := thisType.map (fun t => t.toWire thisVal)
    let argsWired := convertParams params args
    let rv := cppInvokerFunc (cppTargetFunc :: (thisWired.toList ++ argsWired))
    let returns := retType.name ≠ "void"
    let retEvents := if returns then [CallEvent.convertReturn (retType.fromWire rv)] else []
    let result := if returns then some (retType.fromWire rv) else none
    (convTrace thisType params thisVal args ++
      [CallEvent.invokeNative rv] ++
      dtorTrace thisType params thisVal args ++ retEvents,
     .ok result)

/-- Every destructor step precedes every return-conversion step in the
trace. -/
def dtorsPrecedeRet (tr : List CallEvent) : Prop :=
  ∀ (i j : Nat) (ed er : CallEvent), tr[i]? = some ed → isDtorEvent ed = true →
    tr[j]? = some er → isRetEvent er = true → i < j

/-! ## Ownership and handle manager (ClassHandle lifecycle) -/

/-- A RegisteredPointer as the handle code reads it: the registered class it
points into, whether it is a smart-pointer type, and the identity of its
native rawDestructor function. -/
structure PtrType where
  klass : Klass
  isSmartPointer : Bool
  rawDestructorId : Nat

/-- The internal record of a class handle (the object stored on the handle
as the field named by two dollar signs).  ptr and smartPtr are nullable
native addresses; countCell is the identity of the shared refcount cell
(clones share the cell, not the record); deleteScheduled and
preservePointerOnDelete are the two flags, absent-as-false. -/
structure HandleRecord where
  ptr : Option Nat
  ptrType : PtrType
  smartPtr : Option Nat
  smartPtrType : Option PtrType
  countCell : Nat
  deleteScheduled : Bool
  preservePointerOnDelete : Bool

/-- A native destructor invocation observed by the model: either the smart
pointer type destructor applied to the smart pointer, or the registered
class raw destructor applied to the raw pointer. -/
inductive NativeCall where
  | smartDtor (dtorId : Nat) (smartPtr : Nat)
  | rawDtor (dtorId : Nat) (ptr : Nat)
  deriving Repr, DecidableEq

/-- Global mutable state of the handle manager: the live handle records
keyed by handle identity, the shared refcount cells, the ordered log of
native destructor invocations, the deletion queue of handle ids, whether a
delay function (scheduler hook) is installed, and how many times it has been
invoked with flushPendingDeletes. -/
structure HState where
  records : List (Nat × HandleRecord)
  cells : List (Nat × Int)
  nativeCalls : List NativeCall
  deletionQueue : List Nat
  delayFunction : Bool
  flushRequests : Nat
  nextHandle : Nat
  nextCell : Nat

/-- Record lookup by handle id. -/
def HState.record? (s : HState) (h : Nat) : Option HandleRecord :=
  (List.find? (fun kv => kv.1 == h) s.records).map Prod.snd

/-- Value of a refcount cell (0 when the cell does not exist). -/
def HState.cellVal (s : HState) (c : Nat) : Int :=
  match List.find? (fun kv => kv.1 == c) s.cells with
  | some kv => kv.2
  | none => 0

/-- Replace or create an association-list entry. -/
def assocSet {α : Type} (l : List (Nat × α)) (k : Nat) (v : α) : List (Nat × α) :=
  match l with
  | [] => [(k, v)]
  | kv :: rest => if kv.1 == k then (k, v) :: rest else kv :: assocSet rest k v

/-- Update a handle record in place. -/
def HState.setRecord (s : HState) (h : Nat) (r : HandleRecord) : HState :=
  { s with records := assocSet s.records h r }

/-- Add delta to a refcount cell. -/
def HState.addCell (s : HState) (c : Nat) (delta : Int) : HState :=
  { s with cells := assocSet s.cells c (s.cellVal c + delta) }

/-- Embedding of runDestructor on an internal record: the smart-pointer
destructor when a smart pointer is attached, otherwise the raw destructor of
the registered class of the pointer type.  The result is none exactly when a
smart pointer is attached without a smart pointer type, where the source
would crash dereferencing undefined; makeClassHandle never builds such a
record. -/
def runDestructor (r : HandleRecord) : Option NativeCall :=
  if truthy r.smartPtr then
    match r.smartPtrType, r.smartPtr with
    | some t, some sp => some (.smartDtor t.rawDestructorId sp)
    | _, _ => none
  else
    some (.rawDtor r.ptrType.rawDestructorId (match r.ptr with | some p => p | none => 0))

/-- Embedding of releaseClassHandle: decrement the shared count; when it
reaches 0, run the native destructor. -/
def releaseClassHandle (s : HState) (r : HandleRecord) : HState :=
  if (s.addCell r.countCell (-1)).cellVal r.countCell = 0 then
    { s.addCell r.countCell (-1) with
      nativeCalls := s.nativeCalls ++ (runDestructor r).toList }
  else s.addCell r.countCell (-1)

/-- Message of the BindingError thrown by throwInstanceAlreadyDeleted (the
AlreadyDeletedError of the design). -/
def alreadyDeletedMsg (r : HandleRecord) : String :=
  r.ptrType.klass.name ++ " instance already deleted"

/-- Embedding of the delete method (ClassHandle_delete) on the handle with
the given id: throws when the pointer is already null, or when the handle is
scheduled for deletion and does not preserve its pointer; otherwise releases
the shared count (running the native destructor at zero) and, unless
preservePointerOnDelete, clears smartPtr and ptr. -/
def ClassHandle_delete (s : HState) (h : Nat) : Except EmbindError HState :=
  match s.record? h with
  | none => .error (.internalError "no such handle")
  | some r =>
    if ¬ truthy r.ptr then
      .error (.bindingError (alreadyDeletedMsg r))
    else if r.deleteScheduled ∧ ¬ r.preservePointerOnDelete then
      .error (.bindingError "Object already scheduled for deletion")
    else if r.preservePointerOnDelete then
      .ok (releaseClassHandle s r)
    else
      .ok ((releaseClassHandle s r).setRecord h { r with smartPtr := none, ptr := none })

/-- Embedding of shallowCopyInternalPointer: a fresh record with every field
copied; the count cell is shared, not copied. -/
def shallowCopyInternalPointer (r : HandleRecord) : HandleRecord :=
  { ptr := r.ptr, ptrType := r.ptrType, smartPtr := r.smartPtr,
    smartPtrType := r.smartPtrType, countCell := r.countCell,
    deleteScheduled := r.deleteScheduled,
    preservePointerOnDelete := r.preservePointerOnDelete }

/-- Embedding of the clone method (ClassHandle_clone): throws
AlreadyDeletedError when the pointer is null; with preservePointerOnDelete
the shared count is incremented and the same handle returned; otherwise a
new handle is created around a shallow copy of the record, the shared count
is incremented, and the deleteScheduled flag of the copy is cleared. -/
def ClassHandle_clone (s : HState) (h : Nat) : Except EmbindError (Nat × HState) :=
  match s.record? h with
  | none => .error (.internalError "no such handle")
  | some r =>
    if ¬ truthy r.ptr then
      .error (.bindingError (alreadyDeletedMsg r))
    else if r.preservePointerOnDelete then
      .ok (h, s.addCell r.countCell 1)
    else
      .ok (s.nextHandle,
        HState.addCell
          { s with
            records := assocSet s.records s.nextHandle
              { shallowCopyInternalPointer r with deleteScheduled := false }
            nextHandle := s.nextHandle + 1 }
          r.countCell 1)

/-- Pointer comparison at the root of the chains inside
ClassHandle_isAliasOf.  A missing address never compares equal (in the
source an undefined pointer turns into NaN, which is unequal even to
itself). -/
def optPtrEq : Option Nat → Option Nat → Bool
  | some a, some b => a == b
  | _, _ => false

/-- Embedding of the isAliasOf method: upcast both pointers fully to the
roots of their class chains and compare root classes and root addresses. -/
def ClassHandle_isAliasOf (a b : HandleRecord) : Bool :=
  (a.ptrType.klass.rootClass.kid == b.ptrType.klass.rootClass.kid) &&
  optPtrEq (a.ptr.map (fun p => a.ptrType.klass.upcastToRoot p))
           (b.ptr.map (fun p => b.ptrType.klass.upcastToRoot p))

/-- Embedding of the deleteLater method (ClassHandle_deleteLater): throws on
a null pointer or on a handle already scheduled (unless it preserves its
pointer); otherwise pushes the handle on the deletion queue, invokes the
delay function with flushPendingDeletes exactly when the push made the queue
length 1 and a delay function is installed, and marks the handle
scheduled. -/
def ClassHandle_deleteLater (s : HState) (h : Nat) : Except EmbindError (Nat × HState) :=
  match s.record? h with
  | none => .error (.internalError "no such handle")
  | some r =>
    if ¬ truthy r.ptr then
      .error (.bindingError (alreadyDeletedMsg r))
    else if r.deleteScheduled ∧ ¬ r.preservePointerOnDelete then
      .error (.bindingError "Object already scheduled for deletion")
    else if (s.deletionQueue ++ [h]).length = 1 ∧ s.delayFunction then
      .ok (h, HState.setRecord
        { s with deletionQueue := s.deletionQueue ++ [h], flushRequests := s.flushRequests + 1 }
        h { r with deleteScheduled := true })
    else
      .ok (h, HState.setRecord { s with deletionQueue := s.deletionQueue ++ [h] }
        h { r with deleteScheduled := true })

/-- Pop the last element of a list (JavaScript Array.prototype.pop). -/
def popBack {α : Type} (l : List α) : Option (List α × α) :=
  match l.getLast? with
  | none => none
  | some x => some (l.dropLast, x)

/-- Clear the deleteScheduled flag of a handle before deleting it inside the
flush loop. -/
def clearScheduled (s : HState) (h : Nat) : HState :=
  match s.record? h with
  | some r => s.setRecord h { r with deleteScheduled := false }
  | none => s

/-- Fuel-indexed embedding of the loop in flushPendingDeletes, generic in
the delete action so that a delete that re-entrantly pushes onto the queue
is covered: while the queue (re-read on every iteration, never snapshotted)
is non-empty, pop the last handle, clear its deleteScheduled flag, and
delete it, propagating a thrown error.  None means the fuel ran out while
the queue was still non-empty. -/
def flushLoop (delete0 : HState → Nat → Except EmbindError HState) :
    Nat → HState → Option (Except EmbindError HState)
  | 0, s => if s.deletionQueue.isEmpty then some (.ok s) else none
  | fuel + 1, s =>
    match popBack s.deletionQueue with
    | none => some (.ok s)
    | some (q, h) =>
      match delete0 (clearScheduled { s with deletionQueue := q } h) h with
      | .error e => some (.error e)
      | .ok s2 => flushLoop delete0 fuel s2

/-- Embedding of flushPendingDeletes with the modelled delete method as loop
body; fuel equal to the queue length suffices because the modelled delete
never touches the queue. -/
def flushPendingDeletes (s : HState) : Option (Except EmbindError HState) :=
  flushLoop ClassHandle_delete s.deletionQueue.length s

/-- The record literal a caller passes to makeClassHandle before the count
is attached. -/
structure HandleInput where
  ptr : Option Nat
  ptrType : Option PtrType
  smartPtr : Option Nat
  smartPtrType : Option PtrType

/-- Embedding of makeClassHandle: requires a truthy ptr and a ptrType,
requires smartPtrType and smartPtr to be present together, attaches a fresh
count cell holding 1, and returns the new handle. -/
def makeClassHandle (s : HState) (rec : HandleInput) : Except EmbindError (Nat × HState) :=
  match rec.ptrType with
  | none => .error (.internalError "makeClassHandle requires ptr and ptrType")
  | some pt =>
    if truthy rec.ptr = false then
      .error (.internalError "makeClassHandle requires ptr and ptrType")
    else
      let hasSmartPtrType := rec.smartPtrType.isSome
      let hasSmartPtr := truthy rec.smartPtr
      if hasSmartPtrType ≠ hasSmartPtr then
        .error (.internalError "Both smartPtrType and smartPtr must be specified")
      else
        .ok (s.nextHandle, { s with
          records := assocSet s.records s.nextHandle
            { ptr := rec.ptr, ptrType := pt, smartPtr := rec.smartPtr,
              smartPtrType := rec.smartPtrType, countCell := s.nextCell,
              deleteScheduled := false, preservePointerOnDelete := false }
          cells := assocSet s.cells s.nextCell 1
          nextHandle := s.nextHandle + 1
          nextCell := s.nextCell + 1 })

/-! ## Concrete registry and states used to exercise the definitions -/

/-- A root class. -/
def KA : Klass := .root 0 "Base"

/-- A class derived from KA whose native upcast adds 4 to the pointer and
whose native downcast subtracts 4. -/
def KB : Klass := .derived 1 "Derived" (fun p => p + 4) (fun p => p - 4) KA

/-- A root class unrelated to KA and KB. -/
def KC : Klass := .root 7 "Other"

/-- A raw (non-smart) pointer type into KA. -/
def ptA : PtrType := { klass := KA, isSmartPointer := false, rawDestructorId := 11 }

/-- A smart pointer type into KA. -/
def ptSmartA : PtrType := { klass := KA, isSmartPointer := true, rawDestructorId := 23 }

/-- A live raw-pointer handle record with shared count cell 0. -/
def recLive : HandleRecord :=
  { ptr := some 100, ptrType := ptA, smartPtr := none, smartPtrType := none,
    countCell := 0, deleteScheduled := false, preservePointerOnDelete := false }

/-- A state holding the single live handle 0 with refcount 1. -/
def s0 : HState :=
  { records := [(0, recLive)], cells := [(0, 1)], nativeCalls := [],
    deletionQueue := [], delayFunction := true, flushRequests := 0,
    nextHandle := 1, nextCell := 1 }

/-- Handle 0, still live, but already scheduled for deletion. -/
def sSched : HState :=
  { s0 with records := [(0, { recLive with deleteScheduled := true })], cells := [(0, 2)] }

/-- Handle 0 live with preservePointerOnDelete set and refcount 3. -/
def sPres : HState :=
  { s0 with
    records := [(0, { recLive with preservePointerOnDelete := true })]
    cells := [(0, 3)] }

/-- Whether an Except result is a success. -/
def exceptOk {α : Type} : Except EmbindError α → Bool
  | .ok _ => true
  | .error _ => false

/-- Two consecutive delete calls on the same handle. -/
def deleteTwice (s : HState) (h : Nat) : Except EmbindError HState :=
  (ClassHandle_delete s h).bind (fun s1 => ClassHandle_delete s1 h)

/-- A small acyclic dependency graph: only type 5 is registered; 0 depends
on 1 and 5, 1 depends on 2 and 2 is a leaf, as is 3. -/
def acyclicGraph : TypeGraph where
  registeredTypes := fun t => t == 5
  typeDependencies := fun t =>
    if t = 0 then some [1, 5] else if t = 1 then some [2, 3, 2] else none

/-- A rank function witnessing that acyclicGraph has no cycles. -/
def acyclicRank : Nat → Nat := fun t => if t = 0 then 2 else if t = 1 then 1 else 0

/-- An integer-like wire type: no destructor at all. -/
def wtInt : WireType :=
  { name := "int", toWire := fun v => v, dtorPushFn := none,
    destructorFn := .null, fromWire := fun v => v + 1 }

/-- A string-like wire type: toWireType allocates, pushes a free function
onto the destructor sink, and leaves destructorFunction undefined. -/
def wtStr : WireType :=
  { name := "std::string", toWire := fun v => v + 1000, dtorPushFn := some 77,
    destructorFn := .undef, fromWire := fun v => v }

/-- The void return type. -/
def wtVoid : WireType :=
  { name := "void", toWire := fun v => v, dtorPushFn := none,
    destructorFn := .null, fromWire := fun v => v }

/-! ## Helper lemmas -/

@[simp] theorem Klass.kid_root (k : Nat) (nm : String) : (Klass.root k nm).kid = k := rfl

@[simp] theorem Klass.kid_derived (k : Nat) (nm : String) (up dn : Nat → Nat) (b : Klass) :
    (Klass.derived k nm up dn b).kid = k := rfl

@[simp] theorem Klass.name_root (k : Nat) (nm : String) : (Klass.root k nm).name = nm := rfl

@[simp] theorem Klass.name_derived (k : Nat) (nm : String) (up dn : Nat → Nat) (b : Klass) :
    (Klass.derived k nm up dn b).name = nm := rfl

@[simp] theorem Klass.ids_root (k : Nat) (nm : String) : (Klass.root k nm).ids = [k] := rfl

@[simp] theorem Klass.ids_derived (k : Nat) (nm : String) (up dn : Nat → Nat) (b : Klass) :
    (Klass.derived k nm up dn b).ids = k :: b.ids := rfl

@[simp] theorem Klass.rootClass_root (k : Nat) (nm : String) :
    (Klass.root k nm).rootClass = .root k nm := rfl

@[simp] theorem Klass.rootClass_derived (k : Nat) (nm : String) (up dn : Nat → Nat) (b : Klass) :
    (Klass.derived k nm up dn b).rootClass = b.rootClass := rfl

@[simp] theorem Klass.upcastToRoot_root (k : Nat) (nm : String) (p : Nat) :
    (Klass.root k nm).upcastToRoot p = p := rfl

@[simp] theorem Klass.upcastToRoot_derived (k : Nat) (nm : String) (up dn : Nat → Nat)
    (b : Klass) (p : Nat) : (Klass.derived k nm up dn b).upcastToRoot p = b.upcastToRoot (up p) := rfl

theorem find_assocSet_self {α : Type} (l : List (Nat × α)) (k : Nat) (v : α) :
    List.find? (fun kv => kv.1 == k) (assocSet l k v) = some (k, v) := by
  induction l with
  | nil => simp [assocSet]
  | cons kv rest ih =>
    by_cases h : kv.1 = k
    · simp [assocSet, h]
    · simp [assocSet, h, List.find?, ih]

theorem find_assocSet_ne {α : Type} (l : List (Nat × α)) (k k2 : Nat) (v : α)
    (hne : k2 ≠ k) :
    List.find? (fun kv => kv.1 == k2) (assocSet l k v) =
      List.find? (fun kv => kv.1 == k2) l := by
  induction l with
  | nil => simp [assocSet, Ne.symm hne]
  | cons kv rest ih =>
    by_cases h : kv.1 = k
    · subst h
      simp [assocSet, Ne.symm hne]
    · by_cases h2 : kv.1 = k2
      · simp [assocSet, h, h2, hne]
      · simp [assocSet, h, h2, ih]

theorem record?_setRecord_self (s : HState) (h : Nat) (r : HandleRecord) :
    (s.setRecord h r).record? h = some r := by
  simp [HState.record?, HState.setRecord, find_assocSet_self]

theorem record?_setRecord_ne (s : HState) (h h2 : Nat) (r : HandleRecord)
    (hne : h2 ≠ h) : (s.setRecord h r).record? h2 = s.record? h2 := by
  simp [HState.record?, HState.setRecord, find_assocSet_ne _ _ _ _ hne]

theorem cellVal_addCell_self (s : HState) (c : Nat) (d : Int) :
    (s.addCell c d).cellVal c = s.cellVal c + d := by
  simp [HState.cellVal, HState.addCell, find_assocSet_self]

theorem cellVal_setRecord (s : HState) (h : Nat) (r : HandleRecord) (c : Nat) :
    (s.setRecord h r).cellVal c = s.cellVal c := rfl

theorem record?_addCell (s : HState) (c : Nat) (d : Int) (h : Nat) :
    (s.addCell c d).record? h = s.record? h := rfl

/-! ## C10: makeClassHandle -/

/-- C10: a record accepted by makeClassHandle has a truthy ptr and a
ptrType and has a (truthy) smartPtr exactly when it has a smartPtrType;
the returned handle starts with reference count exactly 1 and carries the
given fields with deleteScheduled clear.  A record violating either
requirement is rejected with an internal error and no handle is created. -/
theorem C10_makeClassHandle_invariant (s : HState) (rec : HandleInput) :
    (∀ h s2, makeClassHandle s rec = .ok (h, s2) →
      truthy rec.ptr = true ∧ rec.ptrType.isSome = true ∧
      (truthy rec.smartPtr = true ↔ rec.smartPtrType.isSome = true) ∧
      ∃ r, s2.record? h = some r ∧ s2.cellVal r.countCell = 1 ∧
        r.ptr = rec.ptr ∧ r.smartPtr = rec.smartPtr ∧
        r.smartPtrType = rec.smartPtrType ∧ r.deleteScheduled = false) ∧
    ((¬ (rec.ptrType.isSome = true ∧ truthy rec.ptr = true)) ∨
        rec.smartPtrType.isSome ≠ truthy rec.smartPtr →
      ∃ msg, makeClassHandle s rec = .error (.internalError msg)) := by
  constructor
  · intro h s2 hok
    match hpt : rec.ptrType with
    | none => simp [makeClassHandle, hpt] at hok
    | some pt =>
      by_cases hp : truthy rec.ptr
      · by_cases h2 : rec.smartPtrType.isSome = truthy rec.smartPtr
        · simp [makeClassHandle, hpt, hp, h2] at hok
          obtain ⟨hh, hs⟩ := hok
          subst hh
          subst hs
          refine ⟨hp, by simp [hpt], by simp [h2], ?_⟩
          refine ⟨⟨rec.ptr, pt, rec.smartPtr, rec.smartPtrType, s.nextCell, false, false⟩,
            ?_, ?_, rfl, rfl, rfl, rfl⟩
          · simp [HState.record?, find_assocSet_self]
          · simp [HState.cellVal, find_assocSet_self]
        · simp [makeClassHandle, hpt, hp, h2] at hok
      · simp [makeClassHandle, hpt, hp] at hok
  · intro hbad
    match hpt : rec.ptrType with
    | none =>
      exact ⟨"makeClassHandle requires ptr and ptrType", by simp [makeClassHandle, hpt]⟩
    | some pt =>
      by_cases hp : truthy rec.ptr
      · rcases hbad with hbad | hbad
        · exact absurd ⟨by simp [hpt], hp⟩ hbad
        · exact ⟨"Both smartPtrType and smartPtr must be specified",
            by simp [makeClassHandle, hpt, hp, hbad]⟩
      · exact ⟨"makeClassHandle requires ptr and ptrType",
          by simp [makeClassHandle, hpt, hp]⟩

/-- Witness for C10 at a concrete smart-pointer record: the created handle
has count 1, and the mismatched record (smartPtr without smartPtrType) is
rejected. -/
theorem C10_makeClassHandle_invariant_witness :
    (∀ h s2,
      makeClassHandle s0
        { ptr := some 42, ptrType := some ptA, smartPtr := some 9,
          smartPtrType := some ptSmartA } = .ok (h, s2) →
      ∃ r, s2.record? h = some r ∧ s2.cellVal r.countCell = 1 ∧
        r.ptr = some 42 ∧ r.smartPtr = some 9 ∧
        r.smartPtrType = some ptSmartA ∧ r.deleteScheduled = false) ∧
    (∃ msg,
      makeClassHandle s0
        { ptr := some 42, ptrType := some ptA, smartPtr := some 9,
          smartPtrType := none } = .error (.internalError msg)) := by
  constructor
  · intro h s2 hok
    have := (C10_makeClassHandle_invariant s0
      { ptr := some 42, ptrType := some ptA, smartPtr := some 9,
        smartPtrType := some ptSmartA }).1 h s2 hok
    exact this.2.2.2
  · exact (C10_makeClassHandle_invariant s0
      { ptr := some 42, ptrType := some ptA, smartPtr := some 9,
        smartPtrType := none }).2 (by decide)

/-! ## C6: downcastPointer -/

/-- C6: downcastPointer returns the pointer unchanged when the two classes
coincide; on a derived target it is the recursive downcast toward the base
of the target followed by the native downcast of the target; and whenever
the target is not a descendant of the source class (the source class does
not appear on the target chain) it returns the no-conversion sentinel none
rather than an error (the function has no error outcome at all). -/
theorem C6_downcastPointer_spec :
    (∀ ptr c, downcastPointer ptr c c = some ptr) ∧
    (∀ ptr fromClass toClass, fromClass.kid ∉ toClass.ids →
      downcastPointer ptr fromClass toClass = none) ∧
    (∀ ptr fromClass k nm up dn base, fromClass.kid ≠ k →
      downcastPointer ptr fromClass (.derived k nm up dn base) =
        Option.map dn (downcastPointer ptr fromClass base)) := by
  refine ⟨?_, ?_, ?_⟩
  · intro ptr c
    cases c <;> simp [downcastPointer]
  · intro ptr fromClass toClass
    induction toClass with
    | root k nm =>
      intro hni
      simp at hni
      simp [downcastPointer, hni]
    | derived k nm up dn base ih =>
      intro hni
      simp at hni
      simp [downcastPointer, hni.1, ih hni.2]
  · intro ptr fromClass k nm up dn base hne
    simp [downcastPointer, hne]
    cases downcastPointer ptr fromClass base <;> simp

/-- Witness for C6: downcasting a Base pointer to the unrelated class Other
yields the sentinel none; to Base itself, the identity; and to Derived, the
recursive result through the native downcast of Derived. -/
theorem C6_downcastPointer_spec_witness :
    downcastPointer 5 KA KC = none ∧
    downcastPointer 5 KA KA = some 5 ∧
    downcastPointer 20 KA KB =
      Option.map (fun p => p - 4) (downcastPointer 20 KA KA) := by
  refine ⟨?_, ?_, ?_⟩
  · exact C6_downcastPointer_spec.2.1 5 KA KC (by decide)
  · exact C6_downcastPointer_spec.1 5 KA
  · exact C6_downcastPointer_spec.2.2 20 KA 1 "Derived" (fun p => p + 4) (fun p => p - 4) KA
      (by decide)

/-! ## C7: upcastPointer -/

theorem upcastWalk_of_ok (ptr : Nat) (ptrClass desiredClass : Klass) (v : Nat)
    (h : upcastPointer ptr ptrClass desiredClass = .ok v) :
    UpcastWalk desiredClass ptrClass ptr v := by
  induction ptrClass generalizing ptr with
  | root k nm =>
    by_cases he : k = desiredClass.kid
    · simp [upcastPointer, he] at h
      subst h
      exact .done _ _ he
    · simp [upcastPointer, he] at h
  | derived k nm up dn base ih =>
    by_cases he : k = desiredClass.kid
    · simp [upcastPointer, he] at h
      subst h
      exact .done _ _ he
    · simp [upcastPointer, he] at h
      exact .step k nm up dn base ptr v he (ih (up ptr) h)

theorem ok_of_upcastWalk (ptr : Nat) (ptrClass desiredClass : Klass) (v : Nat)
    (h : UpcastWalk desiredClass ptrClass ptr v) :
    upcastPointer ptr ptrClass desiredClass = .ok v := by
  induction h with
  | done c p hk => cases c <;> simp_all [upcastPointer]
  | step k nm up dn base p v hne hw ih => simp [upcastPointer, hne, ih]

/-- C7: upcastPointer succeeds with value v exactly when the walk that
starts at the source class, moves toward the root and applies each level of
native upcast reaches the desired class with pointer v; and when the desired
class is nowhere on the chain, the walk exhausts it and throws the
type-mismatch BindingError, whose message names the desired class and the
root class the walk ended on. -/
theorem C7_upcastPointer_spec (ptr : Nat) (ptrClass desiredClass : Klass) :
    (∀ v, upcastPointer ptr ptrClass desiredClass = .ok v ↔
      UpcastWalk desiredClass ptrClass ptr v) ∧
    (desiredClass.kid ∉ ptrClass.ids →
      upcastPointer ptr ptrClass desiredClass =
        .error (.bindingError ("Expected null or instance of " ++ desiredClass.name ++
          ", got an instance of " ++ ptrClass.rootClass.name))) := by
  constructor
  · intro v
    exact ⟨upcastWalk_of_ok ptr ptrClass desiredClass v,
      ok_of_upcastWalk ptr ptrClass desiredClass v⟩
  · intro hni
    induction ptrClass generalizing ptr with
    | root k nm =>
      simp at hni
      simp [upcastPointer, Ne.symm hni]
    | derived k nm up dn base ih =>
      simp at hni
      simp [upcastPointer, Ne.symm hni.1, ih (up ptr) hni.2]

/-- Witness for C7: upcasting a Derived pointer to Base applies the native
upcast (adds 4), and upcasting to the unrelated class Other exhausts the
chain and throws the type-mismatch BindingError naming Other and Base. -/
theorem C7_upcastPointer_spec_witness :
    upcastPointer 10 KB KA = .ok 14 ∧
    upcastPointer 10 KB KC =
      .error (.bindingError "Expected null or instance of Other, got an instance of Base") := by
  constructor
  · exact (C7_upcastPointer_spec 10 KB KA).1 14 |>.mpr
      (.step 1 "Derived" (fun p => p + 4) (fun p => p - 4) KA 10 14 (by decide)
        (.done KA 14 rfl))
  · exact (C7_upcastPointer_spec 10 KB KC).2 (by decide)

/-! ## C1: delete / releaseClassHandle -/

theorem nativeCalls_setRecord (s : HState) (h : Nat) (r : HandleRecord) :
    (s.setRecord h r).nativeCalls = s.nativeCalls := rfl

theorem releaseClassHandle_cellVal (s : HState) (r : HandleRecord) :
    (releaseClassHandle s r).cellVal r.countCell = s.cellVal r.countCell - 1 := by
  have haddc : (s.addCell r.countCell (-1)).cellVal r.countCell =
      s.cellVal r.countCell - 1 := by
    rw [cellVal_addCell_self]
    omega
  unfold releaseClassHandle
  by_cases hz : (s.addCell r.countCell (-1)).cellVal r.countCell = 0
  · rw [if_pos hz]
    exact haddc
  · rw [if_neg hz]
    exact haddc

theorem releaseClassHandle_nativeCalls_pos (s : HState) (r : HandleRecord)
    (hz : s.cellVal r.countCell - 1 = 0) :
    (releaseClassHandle s r).nativeCalls = s.nativeCalls ++ (runDestructor r).toList := by
  have haddc : (s.addCell r.countCell (-1)).cellVal r.countCell =
      s.cellVal r.countCell - 1 := by
    rw [cellVal_addCell_self]
    omega
  unfold releaseClassHandle
  rw [if_pos (by rw [haddc]; exact hz)]

theorem releaseClassHandle_nativeCalls_neg (s : HState) (r : HandleRecord)
    (hz : ¬ s.cellVal r.countCell - 1 = 0) :
    (releaseClassHandle s r).nativeCalls = s.nativeCalls := by
  have haddc : (s.addCell r.countCell (-1)).cellVal r.countCell =
      s.cellVal r.countCell - 1 := by
    rw [cellVal_addCell_self]
    omega
  unfold releaseClassHandle
  rw [if_neg (by rw [haddc]; exact hz)]
  rfl

theorem releaseClassHandle_records (s : HState) (r : HandleRecord) :
    (releaseClassHandle s r).records = s.records := by
  unfold releaseClassHandle
  split <;> rfl

theorem releaseClassHandle_queue (s : HState) (r : HandleRecord) :
    (releaseClassHandle s r).deletionQueue = s.deletionQueue := by
  unfold releaseClassHandle
  split <;> rfl

theorem runDestructor_smart (r : HandleRecord) (t : PtrType) (sp : Nat)
    (hst : r.smartPtrType = some t) (hsp2 : r.smartPtr = some sp)
    (hsp : truthy r.smartPtr = true) :
    runDestructor r = some (.smartDtor t.rawDestructorId sp) := by
  unfold runDestructor
  rw [hsp]
  simp [hst, hsp2]

theorem runDestructor_raw (r : HandleRecord) (p : Nat)
    (hsp : truthy r.smartPtr = false) (hps : r.ptr = some p) :
    runDestructor r = some (.rawDtor r.ptrType.rawDestructorId p) := by
  unfold runDestructor
  rw [hsp]
  simp [hps]

/-- Counterexample to C1 as stated.  First, a handle whose internal pointer
is non-null but which was already passed to deleteLater (deleteScheduled
set, preservePointerOnDelete clear) is not released at all: delete throws
the BindingError about scheduled deletion, which is not the
already-deleted error, and the shared count stays 2.  Second, on a handle
with preservePointerOnDelete set the pointer is never cleared, so a second
delete does not fail: it succeeds (decrementing the count again). -/
theorem C1_counterexample :
    ClassHandle_delete sSched 0 =
      .error (.bindingError "Object already scheduled for deletion") ∧
    sSched.cellVal 0 = 2 ∧
    exceptOk (deleteTwice sPres 0) = true := by
  refine ⟨rfl, rfl, rfl⟩

/-- C1 as amended: delete on a handle whose pointer is non-null, and which
is not flagged deleteScheduled while preservePointerOnDelete is clear,
decrements the shared count by exactly 1 and invokes the native destructor
exactly when the count reaches 0, choosing the smart-pointer destructor
when a smart pointer is attached and the registered class raw destructor
otherwise; when preservePointerOnDelete is clear the pointer is then
nulled, and a second delete on the same handle fails with the
already-deleted BindingError. -/
theorem C1_delete_release_spec (s : HState) (h : Nat) (r : HandleRecord)
    (hr : s.record? h = some r) (hp : truthy r.ptr = true)
    (hns : r.deleteScheduled = false ∨ r.preservePointerOnDelete = true)
    (hwf : truthy r.smartPtr = true → r.smartPtrType.isSome = true) :
    ∃ s2, ClassHandle_delete s h = .ok s2 ∧
      s2.cellVal r.countCell = s.cellVal r.countCell - 1 ∧
      (s.cellVal r.countCell - 1 ≠ 0 → s2.nativeCalls = s.nativeCalls) ∧
      (s.cellVal r.countCell - 1 = 0 →
        ∃ call, s2.nativeCalls = s.nativeCalls ++ [call] ∧
          (truthy r.smartPtr = true → ∃ t sp, r.smartPtrType = some t ∧
            r.smartPtr = some sp ∧ call = .smartDtor t.rawDestructorId sp) ∧
          (truthy r.smartPtr = false → ∀ p, r.ptr = some p →
            call = .rawDtor r.ptrType.rawDestructorId p)) ∧
      (r.preservePointerOnDelete = false →
        s2.record? h = some { r with smartPtr := none, ptr := none } ∧
        ClassHandle_delete s2 h = .error (.bindingError (alreadyDeletedMsg r))) := by
  have hcond : ¬ (r.deleteScheduled = true ∧ ¬ r.preservePointerOnDelete = true) := by
    rcases hns with hns | hns <;> simp [hns]
  have hdtor : s.cellVal r.countCell - 1 = 0 →
      ∃ call, (releaseClassHandle s r).nativeCalls = s.nativeCalls ++ [call] ∧
        (truthy r.smartPtr = true → ∃ t sp, r.smartPtrType = some t ∧
          r.smartPtr = some sp ∧ call = .smartDtor t.rawDestructorId sp) ∧
        (truthy r.smartPtr = false → ∀ p, r.ptr = some p →
          call = .rawDtor r.ptrType.rawDestructorId p) := by
    intro hz
    cases hcs : truthy r.smartPtr with
    | false =>
      obtain ⟨p, hps⟩ : ∃ p, r.ptr = some p := by
        cases hv : r.ptr with
        | none => rw [hv] at hp; simp [truthy] at hp
        | some p => exact ⟨p, rfl⟩
      refine ⟨.rawDtor r.ptrType.rawDestructorId p, ?_, by simp [hcs], ?_⟩
      · rw [releaseClassHandle_nativeCalls_pos s r hz, runDestructor_raw r p hcs hps]
        rfl
      · intro _ p2 hps2
        rw [hps] at hps2
        cases hps2
        rfl
    | true =>
      have hwt := hwf hcs
      obtain ⟨t, hst⟩ : ∃ t, r.smartPtrType = some t := by
        cases hv : r.smartPtrType with
        | none => rw [hv] at hwt; simp at hwt
        | some t => exact ⟨t, rfl⟩
      obtain ⟨sp, hsp2⟩ : ∃ sp, r.smartPtr = some sp := by
        cases hv : r.smartPtr with
        | none => rw [hv] at hcs; simp [truthy] at hcs
        | some sp => exact ⟨sp, rfl⟩
      refine ⟨.smartDtor t.rawDestructorId sp, ?_,
        fun _ => ⟨t, sp, hst, hsp2, rfl⟩, by simp [hcs]⟩
      rw [releaseClassHandle_nativeCalls_pos s r hz, runDestructor_smart r t sp hst hsp2 hcs]
      rfl
  by_cases hpres : r.preservePointerOnDelete = true
  · refine ⟨releaseClassHandle s r, ?_, releaseClassHandle_cellVal s r,
      releaseClassHandle_nativeCalls_neg s r, hdtor, by simp [hpres]⟩
    simp [ClassHandle_delete, hr, hp, hcond, hpres]
  · simp only [Bool.not_eq_true] at hpres
    have hds : r.deleteScheduled = false := by
      rcases hns with hns | hns
      · exact hns
      · rw [hpres] at hns
        exact absurd hns (by simp)
    refine ⟨(releaseClassHandle s r).setRecord h { r with smartPtr := none, ptr := none },
      ?_, ?_, ?_, ?_, ?_⟩
    · simp [ClassHandle_delete, hr, hp, hds, hpres]
    · rw [cellVal_setRecord]
      exact releaseClassHandle_cellVal s r
    · intro hnz
      rw [nativeCalls_setRecord]
      exact releaseClassHandle_nativeCalls_neg s r hnz
    · intro hz
      obtain ⟨call, hc1, hc2, hc3⟩ := hdtor hz
      refine ⟨call, ?_, hc2, hc3⟩
      rw [nativeCalls_setRecord]
      exact hc1
    · intro _
      refine ⟨record?_setRecord_self _ _ _, ?_⟩
      have hrec2 := record?_setRecord_self (releaseClassHandle s r) h
        { r with smartPtr := none, ptr := none }
      simp [ClassHandle_delete, hrec2, truthy, alreadyDeletedMsg]

/-- Witness for C1 amended: deleting the live handle of s0 (count 1, raw
pointer 100, raw destructor 11) reaches count 0 and logs a destructor call
that, the handle having no smart pointer, is the raw destructor applied to
pointer 100; the second delete then fails already-deleted. -/
theorem C1_delete_release_spec_witness :
    ∃ s2, ClassHandle_delete s0 0 = .ok s2 ∧
      s2.cellVal 0 = 0 ∧
      (∃ call, s2.nativeCalls = s0.nativeCalls ++ [call] ∧
        (truthy recLive.smartPtr = false → ∀ p, recLive.ptr = some p →
          call = .rawDtor recLive.ptrType.rawDestructorId p)) ∧
      ClassHandle_delete s2 0 = .error (.bindingError (alreadyDeletedMsg recLive)) := by
  obtain ⟨s2, hok, hcv, _, hdtor, hsecond⟩ :=
    C1_delete_release_spec s0 0 recLive rfl (by decide) (.inl rfl) (by decide)
  obtain ⟨call, hc1, _, hc3⟩ := hdtor (by decide)
  have h0 : s2.cellVal recLive.countCell = 0 := by
    rw [hcv]
    decide
  exact ⟨s2, hok, h0, ⟨call, hc1, hc3⟩, (hsecond rfl).2⟩

/-! ## C2: clone -/

/-- C2: clone on a handle with a null pointer fails already-deleted; with
preservePointerOnDelete set it increments the shared count and returns the
same handle; otherwise it returns a fresh handle whose record is the
shallow copy of the original record (same count cell, pointer and pointer
type) with its deleteScheduled flag cleared, and increments the shared
count. -/
theorem C2_clone_spec (s : HState) (h : Nat) (r : HandleRecord)
    (hr : s.record? h = some r) :
    (truthy r.ptr = false →
      ClassHandle_clone s h = .error (.bindingError (alreadyDeletedMsg r))) ∧
    (truthy r.ptr = true → r.preservePointerOnDelete = true →
      ClassHandle_clone s h = .ok (h, s.addCell r.countCell 1) ∧
      (s.addCell r.countCell 1).cellVal r.countCell = s.cellVal r.countCell + 1 ∧
      (s.addCell r.countCell 1).record? h = some r) ∧
    (truthy r.ptr = true → r.preservePointerOnDelete = false →
      (∃ pr, ClassHandle_clone s h = .ok pr) ∧
      ∀ h1 s2, ClassHandle_clone s h = .ok (h1, s2) →
        h1 = s.nextHandle ∧
        s2.record? h1 =
          some { shallowCopyInternalPointer r with deleteScheduled := false } ∧
        ({ shallowCopyInternalPointer r with deleteScheduled := false } :
            HandleRecord).countCell = r.countCell ∧
        ({ shallowCopyInternalPointer r with deleteScheduled := false } :
            HandleRecord).ptr = r.ptr ∧
        ({ shallowCopyInternalPointer r with deleteScheduled := false } :
            HandleRecord).ptrType = r.ptrType ∧
        s2.cellVal r.countCell = s.cellVal r.countCell + 1 ∧
        (s.record? s.nextHandle = none → h1 ≠ h)) := by
  refine ⟨?_, ?_, ?_⟩
  · intro hp
    simp [ClassHandle_clone, hr, hp]
  · intro hp hpres
    refine ⟨by simp [ClassHandle_clone, hr, hp, hpres], cellVal_addCell_self s _ 1, ?_⟩
    rw [record?_addCell]
    exact hr
  · intro hp hpres
    constructor
    · cases hcl : ClassHandle_clone s h with
      | ok pr => exact ⟨pr, rfl⟩
      | error e => simp [ClassHandle_clone, hr, hp, hpres] at hcl
    · intro h1 s2 hcl
      simp [ClassHandle_clone, hr, hp, hpres] at hcl
      obtain ⟨hh1, hs2⟩ := hcl
      subst hh1
      subst hs2
      refine ⟨rfl, ?_, rfl, rfl, rfl, ?_, ?_⟩
      · rw [record?_addCell]
        simp [HState.record?, find_assocSet_self]
      · rw [cellVal_addCell_self]
        rfl
      · intro hfresh hne
        rw [hne] at hfresh
        rw [hfresh] at hr
        exact Option.noConfusion hr

/-- Witness for C2: cloning the live non-preserving handle of s0 creates
handle 1 sharing count cell 0 with pointer 100, and the count becomes 2. -/
theorem C2_clone_spec_witness :
    ∃ s2, ClassHandle_clone s0 0 = .ok (1, s2) ∧
      s2.record? 1 =
        some { shallowCopyInternalPointer recLive with deleteScheduled := false } ∧
      s2.cellVal 0 = 2 := by
  obtain ⟨s2, hcl⟩ : ∃ s2, ClassHandle_clone s0 0 = .ok (1, s2) := ⟨_, rfl⟩
  obtain ⟨_, hall⟩ := (C2_clone_spec s0 0 recLive rfl).2.2 (by decide) rfl
  obtain ⟨_, hrec, _, _, _, hcv, _⟩ := hall 1 s2 hcl
  have h2 : s2.cellVal recLive.countCell = 2 := by
    rw [hcv]
    decide
  exact ⟨s2, hcl, hrec, h2⟩

/-! ## C8: clone aliases the original -/

theorem isAliasOf_of_same (a b : HandleRecord) (p : Nat)
    (hk : a.ptrType.klass = b.ptrType.klass) (hpa : a.ptr = some p)
    (hpb : b.ptr = some p) : ClassHandle_isAliasOf a b = true := by
  simp [ClassHandle_isAliasOf, hk, hpa, hpb, optPtrEq]

/-- C8: for a live handle, clone yields a handle whose record aliases the
original: both upcast to the same root class and the same root address
(being the same class chain and the same pointer), and both records carry
the same reference-count cell. -/
theorem C8_clone_isAliasOf (s : HState) (h : Nat) (r : HandleRecord)
    (hr : s.record? h = some r) (hp : truthy r.ptr = true)
    (hfresh : s.record? s.nextHandle = none)
    (h1 : Nat) (s2 : HState) (hc : ClassHandle_clone s h = .ok (h1, s2)) :
    ∃ r1 r0, s2.record? h1 = some r1 ∧ s2.record? h = some r0 ∧
      ClassHandle_isAliasOf r1 r0 = true ∧ r1.countCell = r0.countCell ∧
      r1.ptrType.klass.rootClass.kid = r0.ptrType.klass.rootClass.kid ∧
      r1.ptr.map (fun p => r1.ptrType.klass.upcastToRoot p) =
        r0.ptr.map (fun p => r0.ptrType.klass.upcastToRoot p) := by
  obtain ⟨p, hps⟩ : ∃ p, r.ptr = some p := by
    cases hv : r.ptr with
    | none => rw [hv] at hp; simp [truthy] at hp
    | some p => exact ⟨p, rfl⟩
  have hne : s.nextHandle ≠ h := by
    intro hne
    rw [hne, hr] at hfresh
    exact Option.noConfusion hfresh
  by_cases hpres : r.preservePointerOnDelete = true
  · simp [ClassHandle_clone, hr, hp, hpres] at hc
    obtain ⟨hh1, hs2⟩ := hc
    subst hh1
    subst hs2
    refine ⟨r, r, ?_, ?_, isAliasOf_of_same r r p rfl hps hps, rfl, rfl, rfl⟩ <;>
      (rw [record?_addCell]; exact hr)
  · simp only [Bool.not_eq_true] at hpres
    simp [ClassHandle_clone, hr, hp, hpres] at hc
    obtain ⟨hh1, hs2⟩ := hc
    subst hh1
    subst hs2
    refine ⟨{ shallowCopyInternalPointer r with deleteScheduled := false }, r, ?_, ?_, ?_,
      rfl, rfl, ?_⟩
    · rw [record?_addCell]
      simp [HState.record?, find_assocSet_self]
    · rw [record?_addCell]
      simp only [HState.record?]
      rw [find_assocSet_ne s.records s.nextHandle h _ (Ne.symm hne)]
      exact hr
    · exact isAliasOf_of_same _ r p rfl hps hps
    · simp [shallowCopyInternalPointer, hps]

/-- Witness for C8: cloning the live handle of s0 and checking isAliasOf on
the two records. -/
theorem C8_clone_isAliasOf_witness :
    ∃ r1 r0 s2h,
      ClassHandle_clone s0 0 = .ok (1, s2h) ∧
      s2h.record? 1 = some r1 ∧ s2h.record? 0 = some r0 ∧
      ClassHandle_isAliasOf r1 r0 = true ∧ r1.countCell = r0.countCell := by
  obtain ⟨s2h, hcl⟩ : ∃ s2h, ClassHandle_clone s0 0 = .ok (1, s2h) := ⟨_, rfl⟩
  obtain ⟨r1, r0, hrec1, hrec0, halias, hcell, _, _⟩ :=
    C8_clone_isAliasOf s0 0 recLive rfl (by decide) rfl 1 s2h hcl
  exact ⟨r1, r0, s2h, hcl, hrec1, hrec0, halias, hcell⟩


/-! ## C9: deleteLater and flushPendingDeletes -/

theorem queue_setRecord (s : HState) (h : Nat) (r : HandleRecord) :
    (s.setRecord h r).deletionQueue = s.deletionQueue := rfl

theorem clearScheduled_queue (s : HState) (h : Nat) :
    (clearScheduled s h).deletionQueue = s.deletionQueue := by
  unfold clearScheduled
  cases hx : s.record? h <;> rfl

theorem delete_queue (s : HState) (h : Nat) (s2 : HState)
    (hd : ClassHandle_delete s h = .ok s2) : s2.deletionQueue = s.deletionQueue := by
  unfold ClassHandle_delete at hd
  cases hx : s.record? h with
  | none =>
    simp only [hx] at hd
    exact absurd hd (by simp)
  | some r =>
    simp only [hx] at hd
    by_cases h1 : ¬ truthy r.ptr
    · rw [if_pos h1] at hd
      exact absurd hd (by simp)
    · rw [if_neg h1] at hd
      by_cases h2 : r.deleteScheduled ∧ ¬ r.preservePointerOnDelete
      · rw [if_pos h2] at hd
        exact absurd hd (by simp)
      · rw [if_neg h2] at hd
        by_cases h3 : r.preservePointerOnDelete
        · rw [if_pos h3] at hd
          injection hd with hd
          subst hd
          exact releaseClassHandle_queue s r
        · rw [if_neg h3] at hd
          injection hd with hd
          subst hd
          rw [queue_setRecord]
          exact releaseClassHandle_queue s r

theorem popBack_none {α : Type} (l : List α) (h : popBack l = none) : l = [] := by
  unfold popBack at h
  cases hg : l.getLast? with
  | none => exact List.getLast?_eq_none_iff.mp hg
  | some x =>
    rw [hg] at h
    exact absurd h (by simp)

theorem popBack_some {α : Type} (l : List α) (q : List α) (x : α)
    (h : popBack l = some (q, x)) : q = l.dropLast := by
  unfold popBack at h
  cases hg : l.getLast? with
  | none =>
    rw [hg] at h
    exact absurd h (by simp)
  | some y =>
    rw [hg] at h
    simp at h
    exact h.1.symm

theorem flushLoop_drains (delete0 : HState → Nat → Except EmbindError HState)
    (fuel : Nat) : ∀ s s2, flushLoop delete0 fuel s = some (.ok s2) →
    s2.deletionQueue = [] := by
  induction fuel with
  | zero =>
    intro s s2 hf
    simp only [flushLoop] at hf
    by_cases hq : s.deletionQueue.isEmpty
    · rw [if_pos hq] at hf
      injection hf with hf
      injection hf with hf
      subst hf
      exact List.isEmpty_iff.mp hq
    · rw [if_neg hq] at hf
      exact absurd hf (by simp)
  | succ fuel ih =>
    intro s s2 hf
    simp only [flushLoop] at hf
    cases hpop : popBack s.deletionQueue with
    | none =>
      rw [hpop] at hf
      injection hf with hf
      injection hf with hf
      subst hf
      exact popBack_none _ hpop
    | some pr =>
      obtain ⟨q, h⟩ := pr
      simp only [hpop] at hf
      cases hdel : delete0 (clearScheduled { s with deletionQueue := q } h) h with
      | error e =>
        simp only [hdel] at hf
        exact absurd hf (by simp)
      | ok s3 =>
        simp only [hdel] at hf
        exact ih s3 s2 hf

theorem flushLoop_total (fuel : Nat) : ∀ s : HState, s.deletionQueue.length = fuel →
    ∃ res, flushLoop ClassHandle_delete fuel s = some res := by
  induction fuel with
  | zero =>
    intro s hlen
    have hq : s.deletionQueue.isEmpty := by
      cases hx : s.deletionQueue with
      | nil => rfl
      | cons a l =>
        rw [hx] at hlen
        exact absurd hlen (by simp)
    refine ⟨.ok s, ?_⟩
    simp only [flushLoop]
    rw [if_pos hq]
  | succ fuel ih =>
    intro s hlen
    cases hpop : popBack s.deletionQueue with
    | none =>
      rw [popBack_none _ hpop] at hlen
      exact absurd hlen (by simp)
    | some pr =>
      obtain ⟨q, h⟩ := pr
      have hq : q.length = fuel := by
        rw [popBack_some _ _ _ hpop]
        rw [List.length_dropLast, hlen]
        rfl
      cases hdel : ClassHandle_delete (clearScheduled { s with deletionQueue := q } h) h with
      | error e =>
        refine ⟨.error e, ?_⟩
        simp [flushLoop, hpop, hdel]
      | ok s3 =>
        have hq3 : s3.deletionQueue.length = fuel := by
          rw [delete_queue _ _ _ hdel, clearScheduled_queue]
          exact hq
        obtain ⟨res, hres⟩ := ih s3 hq3
        refine ⟨res, ?_⟩
        simp only [flushLoop, hpop, hdel]
        exact hres

/-- C9: deleteLater on a live, not-already-scheduled handle appends the
handle to the deletion queue, marks it deleteScheduled, and invokes the
delay function (scheduler hook) exactly when the push made the queue go
from empty to non-empty and a hook is installed; the flush loop, for any
delete action including one that re-entrantly pushes onto the queue, leaves
an empty queue whenever it returns normally; and with the modelled delete
as body, flushPendingDeletes always completes. -/
theorem C9_deleteLater_flush_spec :
    (∀ s h r, s.record? h = some r → truthy r.ptr = true →
      (r.deleteScheduled = false ∨ r.preservePointerOnDelete = true) →
      ∃ s2, ClassHandle_deleteLater s h = .ok (h, s2) ∧
        s2.deletionQueue = s.deletionQueue ++ [h] ∧
        s2.record? h = some { r with deleteScheduled := true } ∧
        s2.flushRequests = s.flushRequests +
          (if s.deletionQueue = [] ∧ s.delayFunction = true then 1 else 0)) ∧
    (∀ delete0 fuel s s2, flushLoop delete0 fuel s = some (.ok s2) →
      s2.deletionQueue = []) ∧
    (∀ s : HState, ∃ res, flushPendingDeletes s = some res) := by
  refine ⟨?_, ?_, ?_⟩
  · intro s h r hrec hp hns
    have himp : r.deleteScheduled = true → r.preservePointerOnDelete = true := by
      intro hds
      rcases hns with hns | hns
      · rw [hns] at hds
        exact absurd hds (by simp)
      · exact hns
    by_cases hq : s.deletionQueue = [] ∧ s.delayFunction = true
    · refine ⟨HState.setRecord { s with deletionQueue := s.deletionQueue ++ [h], flushRequests := s.flushRequests + 1 } h { r with deleteScheduled := true }, ?_, rfl, record?_setRecord_self _ _ _, ?_⟩
      · simp [ClassHandle_deleteLater, hrec, hp, hq]
        exact himp
      · rw [if_pos hq]
        rfl
    · refine ⟨HState.setRecord { s with deletionQueue := s.deletionQueue ++ [h] } h { r with deleteScheduled := true }, ?_, rfl, record?_setRecord_self _ _ _, ?_⟩
      · simp [ClassHandle_deleteLater, hrec, hp, hq]
        exact himp
      · rw [if_neg hq]
        rfl
  · exact flushLoop_drains
  · intro s
    exact flushLoop_total s.deletionQueue.length s rfl

/-- Witness for C9: scheduling the live handle of s0 (queue empty, hook
installed) enqueues it and invokes the hook once, and flushing a state with
that one-element queue completes. -/
theorem C9_deleteLater_flush_spec_witness :
    (∃ s2, ClassHandle_deleteLater s0 0 = .ok (0, s2) ∧
      s2.deletionQueue = [0] ∧ s2.flushRequests = 1) ∧
    (∃ res, flushPendingDeletes s0 = some res) := by
  constructor
  · obtain ⟨s2, hok, hqueue, _, hfr⟩ :=
      C9_deleteLater_flush_spec.1 s0 0 recLive rfl (by decide) (.inl rfl)
    refine ⟨s2, hok, hqueue, ?_⟩
    rw [hfr]
    decide
  · exact C9_deleteLater_flush_spec.2.2 s0


/-! ## C4: exposePublicSymbol and the overload table -/

/-- C4: the first registration of a name stores the callable directly (with
its numArguments property set); a second registration under the same name
with a different arity promotes the symbol to an overload table holding the
previous callable under its argCount and the new one under its arity, the
dispatcher selects the callable registered for the argument count of the
call, and a call whose argument count matches no registered arity fails
with the arity BindingError listing the registered arities.  The
replacePublicSymbol step in the middle is the resolution step that gives
the first callable its argCount property, as in the source flow. -/
theorem C4_overload_table_spec (name : String) (c1 c1r c2 : Callable) (n1 n2 : Nat)
    (args2 args3 : List Nat)
    (hn : n1 ≠ n2) (hname : name ≠ Nat.repr n2)
    (hlen2 : args2.length = n2) (hlen31 : args3.length ≠ n1) (hlen32 : args3.length ≠ n2) :
    ∃ m1 m2 m3,
      exposePublicSymbol [] name c1 (some n1) = .ok m1 ∧
      m1.lookup name = some (.plain { c1 with numArguments := some n1 }) ∧
      replacePublicSymbol m1 name c1r (some n1) = .ok m2 ∧
      exposePublicSymbol m2 name c2 (some n2) = .ok m3 ∧
      m3.lookup name = some (.overloaded
        [(some n1, { c1r with argCount := some n1 }), (some n2, c2)]) ∧
      callPublicSymbol m3 name args2 = .ok (c2.cid, args2) ∧
      callPublicSymbol m3 name args3 =
        .error (.bindingError (invalidArityMsg name args3.length [some n1, some n2])) := by
  refine ⟨[(name, .plain { c1 with numArguments := some n1 })],
    [(name, .plain { c1r with argCount := some n1 })],
    [(name, .overloaded [(some n1, { c1r with argCount := some n1 }), (some n2, c2)])],
    ?_, ?_, ?_, ?_, ?_, ?_, ?_⟩
  · simp [exposePublicSymbol, ModuleObj.lookup, ModuleObj.set]
  · simp [ModuleObj.lookup]
  · simp [replacePublicSymbol, ModuleObj.lookup, ModuleObj.set]
  · simp [exposePublicSymbol, ModuleObj.lookup, ModuleObj.set, ModuleObj.contains,
      ensureOverloadTable, tableGet, tableSet, hname, hn]
  · simp [ModuleObj.lookup]
  · simp [callPublicSymbol, ModuleObj.lookup, tableGet, hlen2, hn]
  · simp [callPublicSymbol, ModuleObj.lookup, tableGet, invalidArityMsg,
      Ne.symm hlen31, Ne.symm hlen32]

/-- Witness for C4: registering f with arity 1 (resolved), then arity 2;
calling f with two arguments runs the 2-arity callable, calling with three
fails listing arities 1 and 2. -/
theorem C4_overload_table_spec_witness :
    ∃ m1 m2 m3,
      exposePublicSymbol [] "f" ⟨10, none, none⟩ (some 1) = .ok m1 ∧
      m1.lookup "f" = some (.plain { cid := 10, argCount := none, numArguments := some 1 }) ∧
      replacePublicSymbol m1 "f" ⟨11, none, none⟩ (some 1) = .ok m2 ∧
      exposePublicSymbol m2 "f" ⟨12, none, none⟩ (some 2) = .ok m3 ∧
      callPublicSymbol m3 "f" [91, 92] = .ok (12, [91, 92]) ∧
      callPublicSymbol m3 "f" [91, 92, 93] =
        .error (.bindingError (invalidArityMsg "f" 3 [some 1, some 2])) := by
  obtain ⟨m1, m2, m3, h1, h2, h3, h4, _, h6, h7⟩ :=
    C4_overload_table_spec "f" ⟨10, none, none⟩ ⟨11, none, none⟩ ⟨12, none, none⟩ 1 2
      [91, 92] [91, 92, 93] (by decide) (by decide) (by decide) (by decide) (by decide)
  exact ⟨m1, m2, m3, h1, h2, h3, h4, h6, h7⟩


/-! ## C5: the crafted invoker -/

theorem isRetEvent_false_of_dtor (e : CallEvent) (h : isDtorEvent e = true) :
    isRetEvent e = false := by
  cases e <;> simp_all [isDtorEvent, isRetEvent]

theorem convTrace_not_ret (tt : Option WireType) (ps : List WireType) (tv : Nat)
    (args : List Nat) : ∀ e ∈ convTrace tt ps tv args, isRetEvent e = false := by
  intro e he
  unfold convTrace at he
  rcases List.mem_append.mp he with he | he
  · cases tt with
    | none => simp at he
    | some t =>
      simp at he
      subst he
      rfl
  · obtain ⟨x, _, rfl⟩ := List.mem_map.mp he
    rfl

theorem dtorTrace_all_dtor (tt : Option WireType) (ps : List WireType) (tv : Nat)
    (args : List Nat) : ∀ e ∈ dtorTrace tt ps tv args, isDtorEvent e = true := by
  intro e he
  unfold dtorTrace at he
  by_cases hnd : needsDestructorStack tt ps = true
  · rw [if_pos hnd] at he
    unfold runDestructors at he
    obtain ⟨x, _, rfl⟩ := List.mem_map.mp he
    rfl
  · rw [if_neg hnd] at he
    unfold staticDtorTrace at he
    rcases List.mem_append.mp he with he | he
    · cases tt with
      | none => simp at he
      | some t =>
        cases hdf : t.destructorFn with
        | fn f =>
          simp [hdf] at he
          subst he
          rfl
        | undef => simp [hdf] at he
        | null => simp [hdf] at he
    · obtain ⟨x, _, hx⟩ := List.mem_filterMap.mp he
      cases hdf : x.1.destructorFn with
      | fn f =>
        simp [hdf] at hx
        subst hx
        rfl
      | undef => simp [hdf] at hx
      | null => simp [hdf] at hx

theorem exists_ret_index (A : List CallEvent) (v : Nat) :
    ∃ (i : Nat) (w : Nat),
      (A ++ [CallEvent.convertReturn v])[i]? = some (CallEvent.convertReturn w) := by
  refine ⟨A.length, v, ?_⟩
  rw [List.getElem?_append_right (Nat.le_refl _)]
  simp

theorem dtorsPrecedeRet_of_split (A B : List CallEvent)
    (hA : ∀ e ∈ A, isRetEvent e = false) (hB : ∀ e ∈ B, isDtorEvent e = false) :
    dtorsPrecedeRet (A ++ B) := by
  intro i j ed er hi hd hj hr
  have hiA : i < A.length := by
    by_contra hge
    push_neg at hge
    rw [List.getElem?_append_right hge] at hi
    have hmem := List.getElem?_mem hi
    rw [hB ed hmem] at hd
    exact absurd hd (by simp)
  have hjB : A.length ≤ j := by
    by_contra hlt
    push_neg at hlt
    rw [List.getElem?_append_left hlt] at hj
    have hmem := List.getElem?_mem hj
    rw [hA er hmem] at hr
    exact absurd hr (by simp)
  omega

/-- C5: when the argument count differs from the bound parameter count, the
crafted invoker throws the arity BindingError with an empty event trace (no
conversion, no native invocation, no destructor ran); on a matching count
the call succeeds and its trace is the argument conversions, the native
invocation, the destructor phase (all of whose events are destructor runs)
and finally, exactly when the return type is not void, the single return
conversion through fromWireType — so every destructor event strictly
precedes the return conversion, and no return conversion happens for
void. -/
theorem C5_invoker_spec (humanName : String) (retType : WireType)
    (thisType : Option WireType) (params : List WireType)
    (cppInvokerFunc : List Nat → Nat) (cppTargetFunc : Nat)
    (thisVal : Nat) (args : List Nat) :
    (args.length ≠ params.length →
      craftInvokerFunction humanName retType thisType params cppInvokerFunc cppTargetFunc
          thisVal args =
        ([], .error (.bindingError ("function " ++ humanName ++ " called with " ++
          Nat.repr args.length ++ " arguments, expected " ++
          Nat.repr params.length ++ " args!")))) ∧
    (args.length = params.length →
      ∃ tr rv,
        craftInvokerFunction humanName retType thisType params cppInvokerFunc cppTargetFunc
            thisVal args =
          (tr, .ok (if retType.name = "void" then none else some (retType.fromWire rv))) ∧
        tr = convTrace thisType params thisVal args ++ [CallEvent.invokeNative rv] ++
          dtorTrace thisType params thisVal args ++
          (if retType.name = "void" then [] else [CallEvent.convertReturn (retType.fromWire rv)]) ∧
        (∀ e ∈ dtorTrace thisType params thisVal args, isDtorEvent e = true) ∧
        dtorsPrecedeRet tr ∧
        ((∃ (i : Nat) (v : Nat), tr[i]? = some (CallEvent.convertReturn v)) ↔
          retType.name ≠ "void")) := by
  constructor
  · intro hlen
    simp [craftInvokerFunction, hlen]
  · intro hlen
    refine ⟨convTrace thisType params thisVal args ++
        [CallEvent.invokeNative (cppInvokerFunc (cppTargetFunc ::
          ((thisType.map (fun t => t.toWire thisVal)).toList ++ convertParams params args)))] ++
        dtorTrace thisType params thisVal args ++
        (if retType.name = "void" then []
         else [CallEvent.convertReturn (retType.fromWire (cppInvokerFunc (cppTargetFunc ::
           ((thisType.map (fun t => t.toWire thisVal)).toList ++ convertParams params args))))]),
      cppInvokerFunc (cppTargetFunc ::
        ((thisType.map (fun t => t.toWire thisVal)).toList ++ convertParams params args)),
      ?_, rfl, dtorTrace_all_dtor thisType params thisVal args, ?_, ?_⟩
    · by_cases hv : retType.name = "void" <;>
        simp [craftInvokerFunction, hlen, hv]
    · apply dtorsPrecedeRet_of_split
      · intro e he
        rcases List.mem_append.mp he with he | he
        · rcases List.mem_append.mp he with he | he
          · exact convTrace_not_ret thisType params thisVal args e he
          · simp at he
            subst he
            rfl
        · exact isRetEvent_false_of_dtor e (dtorTrace_all_dtor thisType params thisVal args e he)
      · intro e he
        by_cases hv : retType.name = "void"
        · rw [if_pos hv] at he
          simp at he
        · rw [if_neg hv] at he
          simp at he
          subst he
          rfl
    · constructor
      · rintro ⟨i, v, hi⟩ hv
        rw [if_pos hv] at hi
        have hmem := List.getElem?_mem hi
        rw [List.append_nil] at hmem
        rcases List.mem_append.mp hmem with hmem | hmem
        · rcases List.mem_append.mp hmem with hmem | hmem
          · have := convTrace_not_ret thisType params thisVal args _ hmem
            exact absurd this (by simp [isRetEvent])
          · simp at hmem
        · have := dtorTrace_all_dtor thisType params thisVal args _ hmem
          exact absurd (isRetEvent_false_of_dtor _ this) (by simp [isRetEvent])
      · intro hv
        rw [if_neg hv]
        exact exists_ret_index _ _

/-- Witness for C5: a two-parameter function (int and string-like
parameters, int return).  Called with one argument it fails with the arity
error and an empty trace; called with two it succeeds with an ordered
trace. -/
theorem C5_invoker_spec_witness :
    craftInvokerFunction "g" wtInt none [wtInt, wtStr]
        (fun l => l.foldl (fun a b => a + b) 0) 3 0 [4] =
      ([], .error (.bindingError ("function " ++ "g" ++ " called with " ++
        Nat.repr 1 ++ " arguments, expected " ++ Nat.repr 2 ++ " args!"))) ∧
    (∃ tr rv,
      craftInvokerFunction "g" wtInt none [wtInt, wtStr]
          (fun l => l.foldl (fun a b => a + b) 0) 3 0 [4, 5] =
        (tr, .ok (some (wtInt.fromWire rv))) ∧
      dtorsPrecedeRet tr) := by
  constructor
  · exact (C5_invoker_spec "g" wtInt none [wtInt, wtStr]
      (fun l => l.foldl (fun a b => a + b) 0) 3 0 [4]).1 (by decide)
  · obtain ⟨tr, rv, heq, _, _, hord, _⟩ := (C5_invoker_spec "g" wtInt none [wtInt, wtStr]
      (fun l => l.foldl (fun a b => a + b) 0) 3 0 [4, 5]).2 (by decide)
    simp only [wtInt, reduceIte] at heq
    exact ⟨tr, rv, heq, hord⟩


/-! ## C3: the unbound-type error walk -/

theorem reachesLeaf_not_registered (G : TypeGraph) (t x : Nat)
    (hreg : G.registeredTypes t = true) : ¬ ReachesLeaf G t x := by
  intro h
  cases h with
  | leaf _ hr _ =>
    rw [hreg] at hr
    exact Bool.noConfusion hr
  | step _ d _ ds hr _ _ _ =>
    rw [hreg] at hr
    exact Bool.noConfusion hr

theorem reachesLeaf_leaf_eq (G : TypeGraph) (t x : Nat)
    (hdep : G.typeDependencies t = none) (h : ReachesLeaf G t x) : x = t := by
  cases h with
  | leaf _ _ _ => rfl
  | step _ d _ ds _ hd _ _ =>
    rw [hdep] at hd
    exact Option.noConfusion hd

theorem reachesLeaf_step_iff (G : TypeGraph) (t x : Nat) (ds : List Nat)
    (hreg : G.registeredTypes t = false) (hdep : G.typeDependencies t = some ds) :
    ReachesLeaf G t x ↔ ∃ d ∈ ds, ReachesLeaf G d x := by
  constructor
  · intro h
    cases h with
    | leaf _ _ hd =>
      rw [hdep] at hd
      exact Option.noConfusion hd
    | step _ d _ ds2 _ hd hmem h2 =>
      rw [hdep] at hd
      injection hd with hd
      subst hd
      exact ⟨d, hmem, h2⟩
  · rintro ⟨d, hmem, h⟩
    exact .step t d x ds hreg hdep hmem h

theorem optFold_spec (G : TypeGraph) (R : Nat → Nat → Prop)
    (f : WalkState → Nat → Option WalkState)
    (hf : ∀ s t s1, WalkInv G s → f s t = some s1 → WalkInv G s1 ∧
      ∀ x, x ∈ s1.unboundTypes ↔ (x ∈ s.unboundTypes ∨ R t x)) :
    ∀ ts s s2, WalkInv G s → optFold f s ts = some s2 → WalkInv G s2 ∧
      ∀ x, x ∈ s2.unboundTypes ↔ (x ∈ s.unboundTypes ∨ ∃ t ∈ ts, R t x) := by
  intro ts
  induction ts with
  | nil =>
    intro s s2 hinv hfold
    simp only [optFold] at hfold
    injection hfold with hfold
    subst hfold
    exact ⟨hinv, fun x => by simp⟩
  | cons t rest ih =>
    intro s s2 hinv hfold
    simp only [optFold] at hfold
    cases hft : f s t with
    | none =>
      rw [hft] at hfold
      exact absurd hfold (by simp)
    | some s1 =>
      rw [hft] at hfold
      obtain ⟨hinv1, hiff1⟩ := hf s t s1 hinv hft
      obtain ⟨hinv2, hiff2⟩ := ih s1 s2 hinv1 hfold
      refine ⟨hinv2, fun x => ?_⟩
      rw [hiff2 x, hiff1 x]
      constructor
      · rintro ((hx | hx) | ⟨u, hu, hx⟩)
        · exact .inl hx
        · exact .inr ⟨t, by simp, hx⟩
        · exact .inr ⟨u, by simp [hu], hx⟩
      · rintro (hx | ⟨u, hu, hx⟩)
        · exact .inl (.inl hx)
        · rcases List.mem_cons.mp hu with rfl | hu
          · exact .inl (.inr hx)
          · exact .inr ⟨u, hu, hx⟩

theorem visitT_spec (G : TypeGraph) :
    ∀ fuel s t s1, WalkInv G s → visitT G fuel s t = some s1 →
      WalkInv G s1 ∧ ∀ x, x ∈ s1.unboundTypes ↔
        (x ∈ s.unboundTypes ∨ ReachesLeaf G t x) := by
  intro fuel
  induction fuel with
  | zero =>
    intro s t s1 _ h
    exact absurd h (by simp [visitT])
  | succ fuel ih =>
    intro s t s1 hinv hv
    simp only [visitT] at hv
    by_cases hseen : t ∈ s.seen
    · rw [if_pos hseen] at hv
      injection hv with hv
      subst hv
      refine ⟨hinv, fun x => ?_⟩
      constructor
      · exact .inl
      · rintro (hx | hx)
        · exact hx
        · obtain ⟨hreg, hdep⟩ := hinv.2.2 t hseen
          rw [reachesLeaf_leaf_eq G t x hdep hx]
          exact (hinv.2.1 t).mp hseen
    · rw [if_neg hseen] at hv
      by_cases hreg : G.registeredTypes t = true
      · rw [if_pos hreg] at hv
        injection hv with hv
        subst hv
        refine ⟨hinv, fun x => ?_⟩
        constructor
        · exact .inl
        · rintro (hx | hx)
          · exact hx
          · exact absurd hx (reachesLeaf_not_registered G t x hreg)
      · rw [if_neg hreg] at hv
        have hregf : G.registeredTypes t = false := by
          simpa using hreg
        cases hdep : G.typeDependencies t with
        | some ds =>
          rw [hdep] at hv
          obtain ⟨hinv2, hiff⟩ := optFold_spec G (ReachesLeaf G)
            (fun s1 d => visitT G fuel s1 d)
            (fun s2 t2 s3 => ih s2 t2 s3) ds s s1 hinv hv
          refine ⟨hinv2, fun x => ?_⟩
          rw [hiff x, reachesLeaf_step_iff G t x ds hregf hdep]
        | none =>
          rw [hdep] at hv
          injection hv with hv
          subst hv
          obtain ⟨hnd, hsame, hleaf⟩ := hinv
          have htunb : t ∉ s.unboundTypes := fun hx => hseen ((hsame t).mpr hx)
          refine ⟨⟨?_, ?_, ?_⟩, fun x => ?_⟩
          · rw [List.nodup_append]
            refine ⟨hnd, by simp, ?_⟩
            intro a ha hb
            simp at hb
            subst hb
            exact htunb ha
          · intro u
            simp only [List.mem_cons, List.mem_append, List.mem_singleton]
            rw [← hsame u]
            tauto
          · intro u hu
            rcases List.mem_cons.mp hu with rfl | hu
            · exact ⟨hregf, hdep⟩
            · exact hleaf u hu
          · simp only [List.mem_append, List.mem_singleton]
            constructor
            · rintro (hx | rfl)
              · exact .inl hx
              · exact .inr (.leaf _ hregf hdep)
            · rintro (hx | hx)
              · exact .inl hx
              · exact .inr (reachesLeaf_leaf_eq G t x hdep hx)

theorem optFold_total (f : WalkState → Nat → Option WalkState) :
    ∀ ts : List Nat, (∀ d ∈ ts, ∀ s, ∃ s1, f s d = some s1) →
    ∀ s, ∃ s2, optFold f s ts = some s2 := by
  intro ts
  induction ts with
  | nil =>
    intro _ s
    exact ⟨s, rfl⟩
  | cons t rest ih =>
    intro hall s
    obtain ⟨s1, hs1⟩ := hall t (by simp) s
    obtain ⟨s2, hs2⟩ := ih (fun d hd s3 => hall d (by simp [hd]) s3) s1
    refine ⟨s2, ?_⟩
    simp only [optFold, hs1]
    exact hs2

theorem visitT_total (G : TypeGraph) (rk : Nat → Nat)
    (hrk : ∀ t ds, G.typeDependencies t = some ds → ∀ d ∈ ds, rk d < rk t) :
    ∀ fuel t, rk t < fuel → ∀ s, ∃ s1, visitT G fuel s t = some s1 := by
  intro fuel
  induction fuel with
  | zero =>
    intro t h
    exact absurd h (by omega)
  | succ fuel ih =>
    intro t hlt s
    by_cases hseen : t ∈ s.seen
    · exact ⟨s, by simp [visitT, hseen]⟩
    · by_cases hreg : G.registeredTypes t = true
      · exact ⟨s, by simp [visitT, hseen, hreg]⟩
      · cases hdep : G.typeDependencies t with
        | none =>
          exact ⟨⟨t :: s.seen, s.unboundTypes ++ [t]⟩,
            by simp [visitT, hseen, hreg, hdep]⟩
        | some ds =>
          have hall : ∀ d ∈ ds, ∀ s0, ∃ s1, visitT G fuel s0 d = some s1 := by
            intro d hd s0
            have hdlt : rk d < rk t := hrk t ds hdep d hd
            exact ih d (by omega) s0
          obtain ⟨s2, hs2⟩ := optFold_total (fun s0 d => visitT G fuel s0 d) ds hall s
          refine ⟨s2, ?_⟩
          simp only [visitT]
          rw [if_neg hseen, if_neg hreg]
          simp only [hdep]
          exact hs2

/-- C3 as amended: on every dependency graph whose recorded dependency
relation is well-founded — witnessed by a rank function that strictly
decreases along recorded dependencies — the unbound-type walk terminates
(for any fuel exceeding the rank of every root), and the thrown
UnboundTypeError lists exactly the still-unregistered leaf dependencies
(unregistered types with no recorded dependencies) reachable from the given
type ids through unregistered types, each listed at most once.  On cyclic
graphs the walk need not terminate: the seen set is updated only when a
leaf is pushed, so it does not cut cycles (see the counterexample). -/
theorem C3_unbound_walk_spec (G : TypeGraph) (rk : Nat → Nat)
    (hrk : ∀ t ds, G.typeDependencies t = some ds → ∀ d ∈ ds, rk d < rk t)
    (message : String) (types : List Nat) (fuel : Nat)
    (hfuel : ∀ t ∈ types, rk t < fuel) :
    ∃ unbound, throwUnboundTypeErrorF G fuel message types =
        some (.unboundType message unbound) ∧
      unbound.Nodup ∧
      (∀ x, x ∈ unbound ↔ ∃ t ∈ types, ReachesLeaf G t x) := by
  have hall : ∀ t ∈ types, ∀ s, ∃ s1, visitT G fuel s t = some s1 :=
    fun t ht s => visitT_total G rk hrk fuel t (hfuel t ht) s
  obtain ⟨s2, hs2⟩ := optFold_total (fun s t => visitT G fuel s t) types hall ⟨[], []⟩
  have hinv0 : WalkInv G ⟨[], []⟩ :=
    ⟨List.nodup_nil, fun t => by simp, fun t ht => absurd ht (by simp)⟩
  obtain ⟨hinv2, hiff⟩ := optFold_spec G (ReachesLeaf G) (fun s t => visitT G fuel s t)
    (fun s t s1 => visitT_spec G fuel s t s1) types ⟨[], []⟩ s2 hinv0 hs2
  refine ⟨s2.unboundTypes, ?_, hinv2.1, fun x => ?_⟩
  · simp only [throwUnboundTypeErrorF, hs2]
  · rw [hiff x]
    simp

theorem cyclicGraph_registered (t : Nat) : cyclicGraph.registeredTypes t = false := rfl

theorem cyclicGraph_deps0 : cyclicGraph.typeDependencies 0 = some [1] := rfl

theorem cyclicGraph_deps1 : cyclicGraph.typeDependencies 1 = some [0] := rfl

/-- Counterexample to C3 as stated: on the cyclic dependency graph
(0 and 1 unregistered, each depending on the other) the walk does not
terminate for any amount of fuel — the seen set is written only when a leaf
is pushed, so it never cuts the cycle — and throwUnboundTypeError never
returns, where the claim promises termination on graphs with cycles. -/
theorem C3_counterexample : cyclicWalkDiverges := by
  have key : ∀ fuel u, visitT cyclicGraph fuel ⟨[], u⟩ 0 = none ∧
      visitT cyclicGraph fuel ⟨[], u⟩ 1 = none := by
    intro fuel
    induction fuel with
    | zero => intro u; exact ⟨rfl, rfl⟩
    | succ fuel ih =>
      intro u
      constructor
      · simp [visitT, cyclicGraph_registered, cyclicGraph_deps0, optFold, (ih u).2]
      · simp [visitT, cyclicGraph_registered, cyclicGraph_deps1, optFold, (ih u).1]
  constructor
  · intro fuel u
    exact (key fuel u).1
  · intro fuel
    simp [throwUnboundTypeErrorF, optFold, (key fuel []).1]

/-- Witness for C3 amended on a concrete acyclic graph: from root 0, with
type 5 registered, 1 unresolved with dependencies and 2 and 3 unregistered
leaves (2 referenced twice), the walk returns an UnboundTypeError whose
list is duplicate-free and holds exactly the reachable unregistered
leaves. -/
theorem C3_unbound_walk_spec_witness :
    ∃ unbound, throwUnboundTypeErrorF acyclicGraph 3 "Cannot call func due to unbound types" [0] =
        some (.unboundType "Cannot call func due to unbound types" unbound) ∧
      unbound.Nodup ∧
      (∀ x, x ∈ unbound ↔ ∃ t ∈ [0], ReachesLeaf acyclicGraph t x) := by
  apply C3_unbound_walk_spec acyclicGraph acyclicRank
  · intro t ds hd d hdm
    by_cases ht0 : t = 0
    · subst ht0
      simp [acyclicGraph] at hd
      subst hd
      fin_cases hdm <;> decide
    · by_cases ht1 : t = 1
      · subst ht1
        simp [acyclicGraph, ht0] at hd
        subst hd
        fin_cases hdm <;> decide
      · simp [acyclicGraph, ht0, ht1] at hd
  · intro t ht
    simp at ht
    subst ht
    simp [acyclicRank]

end Embind
